import Mathlib

/-!
Verification of the drama-buddy rehearsal app core: script segmenter,
synthesis cache, turn matcher and reading orchestrator, embedded from the
TypeScript sources (src/utils/parser.ts, src/services/tts.ts, src/App.tsx).
-/

namespace DramaBuddy

/-! ### JavaScript string primitives

The TypeScript code relies on `toLowerCase`, `trim`, `startsWith`,
`split('\n')`, `split(/\s+/)` and `replace(punct, "")`.  They are embedded
here as functions on the underlying character lists. -/

/-- `s.toLowerCase()` (ASCII case folding). -/
def jsToLower (s : String) : String := String.mk (s.data.map Char.toLower)

/-- `s.trim()`: remove leading and trailing whitespace. -/
def jsTrim (s : String) : String :=
  String.mk (((s.data.dropWhile Char.isWhitespace).reverse.dropWhile Char.isWhitespace).reverse)

/-- The fixed punctuation class of `App.tsx` lines 103-104:
`/[.,/#!$%^&*;:{}=\-_`~()]/g` (braces and backtick written as escapes). -/
def punctChars : List Char := ".,/#!$%^&*;:\x7b\x7d=-_\x60~()".toList

/-- `s.replace(/[.,/#!$%^&*;:{}=\-_`~()]/g, "")`. -/
def stripPunct (s : String) : String :=
  String.mk (s.data.filter (fun c => !(punctChars.contains c)))

/-- Maximal runs of non-whitespace characters (accumulator holds the
current word reversed). -/
def wordsAux : List Char → List Char → List (List Char)
  | [], acc => if acc.isEmpty then [] else [acc.reverse]
  | c :: rest, acc =>
    if c.isWhitespace then
      if acc.isEmpty then wordsAux rest [] else acc.reverse :: wordsAux rest []
    else wordsAux rest (c :: acc)

/-- The whitespace-separated words of `s`. -/
def wsWords (s : String) : List String := (wordsAux s.data []).map String.mk

/-- JavaScript `s.split(/\s+/)`: the maximal non-whitespace runs, plus an
empty piece at the front (resp. back) when the string starts (resp. ends)
with whitespace; `"".split(/\s+/)` is `[""]`. -/
def jsSplitWs (s : String) : List String :=
  match s.data with
  | [] => [""]
  | c :: _ =>
    let pre : List String := if c.isWhitespace then [""] else []
    let post : List String :=
      match s.data.getLast? with
      | some d => if d.isWhitespace then [""] else []
      | none => []
    pre ++ wsWords s ++ post

/-- JavaScript `text.split('\n')`. -/
def splitNewlines : List Char → List (List Char)
  | [] => [[]]
  | c :: rest =>
    if c = '\n' then [] :: splitNewlines rest
    else
      match splitNewlines rest with
      | g :: gs => (c :: g) :: gs
      | [] => [c :: rest]

/-! ### TurnMatcher (App.tsx lines 94-121)

Lines 103-115 of `recognition.onresult` decide whether the user finished
the current line.  The transcript has already been trimmed and lowercased
at line 94; the comparison `spokenCount >= wordsExpected.length * 0.7` is
stated exactly over naturals as `10 * spokenCount ≥ 7 * expectedCount`. -/

/-- The normalized word list of the expected line text
(`currentLine.text.toLowerCase().replace(punct, "")` split on `/\s+/`). -/
def expectedWords (expectedText : String) : List String :=
  jsSplitWs (stripPunct (jsToLower expectedText))

/-- The normalized word list of the spoken transcript
(trimmed and lowercased at line 94, punctuation stripped at line 104). -/
def spokenWords (transcriptFragment : String) : List String :=
  jsSplitWs (stripPunct (jsToLower (jsTrim transcriptFragment)))

/-- The match condition of lines 106-115, on the already trimmed and
lowercased transcript. -/
def turnMatchCore (expectedText transcript : String) : Bool :=
  let expectedClean := stripPunct (jsToLower expectedText)
  let cleanedTranscript := stripPunct transcript
  let wordsExpected := jsSplitWs expectedClean
  let wordsSpoken := jsSplitWs cleanedTranscript
  let lastWordExpected := wordsExpected.getLastD ""
  let hasLastWord := wordsSpoken.contains lastWordExpected
  let spokenCount := wordsSpoken.length
  hasLastWord || decide (10 * spokenCount ≥ 7 * wordsExpected.length)

/-- `isTurnComplete(expectedText, transcriptFragment, isFinalFragment)`:
the turn-completion check of App.tsx lines 94-121. -/
def isTurnComplete (expectedText transcriptFragment : String) (isFinalFragment : Bool) : Bool :=
  isFinalFragment && turnMatchCore expectedText (jsToLower (jsTrim transcriptFragment))

/-! ### ScriptSegmenter (src/utils/parser.ts) -/

/-- A parsed dialogue line (`ScriptLine` of src/types.ts); the opaque id is
modelled by the physical line number used in its construction. -/
structure ScriptLine where
  role : String
  text : String
  id : Nat
deriving Repr, DecidableEq

/-- `ScriptData` of src/types.ts. -/
structure ScriptData where
  title : String
  lines : List ScriptLine
  roles : List String
deriving Repr, DecidableEq

/-- Split a physical line at the first `.` or `:`; `none` when no such
delimiter exists past position 0.  This is the match of
`/^([^.:\n]+)[.:]\s*(.*)$/u`: the first component is group 1 (nonempty,
delimiter-free), the second the text after the delimiter. -/
def splitAtDelim : List Char → Option (List Char × List Char)
  | [] => none
  | c :: rest =>
    if c = '.' ∨ c = ':' then some ([], rest)
    else (splitAtDelim rest).map (fun p => (c :: p.1, p.2))

/-- Match `rolePattern = /^([^.:\n]+)[.:]\s*(.*)$/u` against a physical
line, returning (group 1, group 2). -/
def matchRole (line : String) : Option (String × String) :=
  match splitAtDelim line.data with
  | none => none
  | some (g1, g2) =>
    if g1.isEmpty then none
    else some (String.mk g1, String.mk (g2.dropWhile Char.isWhitespace))

/-- The character class `[А-ЯA-Z]` of `initialPattern`: a capital Latin or
Cyrillic (U+0410-U+042F) letter. -/
def isCapLetter (c : Char) : Bool :=
  (decide ('A' ≤ c) && decide (c ≤ 'Z')) ||
  (decide (Char.ofNat 0x410 ≤ c) && decide (c ≤ Char.ofNat 0x42F))

/-- `isInitialPart` of parser.ts line 42: the role candidate is a single
character and the content matches `/^[А-ЯA-Z]\.?/` — it starts with a
capital letter (the period is optional in the regex). -/
def isInitialPart (roleCandidate content : String) : Bool :=
  (roleCandidate.data.length == 1) &&
  (match content.data with
   | [] => false
   | c :: _ => isCapLetter c)

/-- `/^[\d\s]+$/.test(s)`: `s` is nonempty and all digits or whitespace. -/
def isDigitsOrWs (s : String) : Bool :=
  !s.data.isEmpty && s.data.all (fun c => c.isDigit || c.isWhitespace)

/-- `isLikelyRole` of parser.ts lines 44-50. -/
def isLikelyRole (roleCandidate content : String) : Bool :=
  decide (1 ≤ roleCandidate.data.length) &&
  decide (roleCandidate.data.length ≤ 35) &&
  !(roleCandidate.data.contains ',') &&
  decide ((jsSplitWs roleCandidate).length ≤ 4) &&
  !isDigitsOrWs roleCandidate &&
  !isInitialPart roleCandidate content

/-- Intermediate parser state: dialogue lines in reverse order, role names
in insertion order without duplicates, and the running title. -/
structure ParseState where
  revLines : List ScriptLine
  roles : List String
  title : String
deriving Repr, DecidableEq

/-- Append `' ' + rawLine` to the text of the last parsed dialogue line,
when one exists. -/
def appendToLast (st : ParseState) (rawLine : String) : ParseState :=
  match st.revLines with
  | [] => st
  | l :: rest => { st with revLines := { l with text := l.text ++ " " ++ rawLine } :: rest }

/-- The title-versus-continuation fallback of parser.ts lines 61-75. -/
def titleOrContinuation (st : ParseState) (i : Nat) (rawLine : String) : ParseState :=
  if i < 3 ∧ st.revLines.isEmpty then
    { st with title := if st.title = "Untitled Script" then rawLine
                       else st.title ++ " " ++ rawLine }
  else if !st.revLines.isEmpty then appendToLast st rawLine
  else st

/-- Process one trimmed, nonempty physical line (the body of the `for`
loop of parser.ts lines 20-77; `jsTrim m1` is `roleCandidate`, `jsTrim m2`
is `content`). -/
def processLine (st : ParseState) (i : Nat) (rawLine : String) : ParseState :=
  if rawLine.data.headD ' ' = '-' then
    -- `rawLine.startsWith('--') || rawLine.startsWith('-')`
    appendToLast st rawLine
  else
    match matchRole rawLine with
    | some (m1, m2) =>
      if isLikelyRole (jsTrim m1) (jsTrim m2) &&
         (!(jsTrim m2).data.isEmpty || st.roles.contains (jsTrim m1)) then
        { st with
          revLines := { role := jsTrim m1, text := jsTrim m2, id := i } :: st.revLines,
          roles := if st.roles.contains (jsTrim m1) then st.roles
                   else st.roles ++ [jsTrim m1] }
      else titleOrContinuation st i rawLine
    | none => titleOrContinuation st i rawLine

/-- Lexicographic string order on the underlying character lists, the
order used by `Array.prototype.sort()` on the role names. -/
abbrev strOrder : String → String → Prop := fun a b => a.data ≤ b.data

/-- `Array.from(roles).sort()`: sort role names (they are pairwise
distinct, so any correct sort gives the same list). -/
def jsSortStrings (l : List String) : List String :=
  List.insertionSort strOrder l

/-- `parseScript` of src/utils/parser.ts. -/
def parseScript (text : String) : ScriptData :=
  let lines := (((splitNewlines text.data).map (fun cs => jsTrim (String.mk cs))).filter
    (fun l => !l.data.isEmpty))
  let st := lines.enum.foldl (fun st p => processLine st p.1 p.2)
    { revLines := [], roles := [], title := "Untitled Script" }
  let parsedLines := st.revLines.reverse
  let title := if parsedLines.isEmpty ∧ ¬lines.isEmpty then lines.headD "" else st.title
  { title := title, lines := parsedLines, roles := jsSortStrings st.roles }

/-! ### SynthesisCache (src/services/tts.ts)

`TTSService.getAudioBuffer` keeps a `cache : Map<string, AudioBuffer>` and
a `pendingRequests : Map<string, Promise<AudioBuffer>>`.  The service is
embedded as a state machine: `getAudioBuffer` performs the synchronous
prefix of the method (cache probe, pending probe, registration of a fresh
backend call), and `completeSuccess` / `completeFailure` perform the
continuation of the async request body when the backend call resolves or
rejects.  Callers and backend calls are identified by numbers; audio
buffers are opaque numbers. -/

/-- `getCacheKey` of tts.ts line 24. -/
def getCacheKey (text voice : String) : String := voice ++ ":" ++ text

/-- Association-list lookup, the `Map.get`/`Map.has` probe. -/
def mapGet {κ α : Type} [BEq κ] : List (κ × α) → κ → Option α
  | [], _ => none
  | (k, v) :: rest, key => if k == key then some v else mapGet rest key

/-- `Map.delete k`. -/
def mapErase {κ α : Type} [BEq κ] (l : List (κ × α)) (k : κ) : List (κ × α) :=
  l.filter (fun p => !(p.1 == k))

/-- `Map.set k v` (overwrite). -/
def mapSet {κ α : Type} [BEq κ] (l : List (κ × α)) (k : κ) (v : α) : List (κ × α) :=
  (k, v) :: mapErase l k

/-- An opaque decoded audio buffer. -/
abbrev Buffer := Nat

/-- State of a `TTSService` instance together with its environment:
the two tables, the backend calls still in flight (request id ↦ key), the
callers awaiting each request, the outcome delivered to each caller, and
the number of backend invocations made so far. -/
structure TTSState where
  cache : List (String × Buffer)
  pendingRequests : List (String × Nat)
  inFlight : List (Nat × String)
  waiters : List (Nat × Nat)
  results : List (Nat × Option Buffer)
  backendCalls : Nat
  nextRid : Nat
  useDirectPlayback : Bool
deriving Repr, DecidableEq

/-- A freshly constructed `TTSService` (buffer-returning provider). -/
def initTTS : TTSState :=
  { cache := [], pendingRequests := [], inFlight := [], waiters := []
    results := [], backendCalls := 0, nextRid := 0, useDirectPlayback := false }

/-- The synchronous prefix of `getAudioBuffer(text, voice)`
(tts.ts lines 31-61), executed on behalf of `caller`. -/
def getAudioBuffer (caller : Nat) (text voice : String) (s : TTSState) : TTSState :=
  if s.useDirectPlayback then
    -- direct playback bypasses the cache: one provider call per request
    { s with inFlight := (s.nextRid, getCacheKey text voice) :: s.inFlight
             waiters := (s.nextRid, caller) :: s.waiters
             backendCalls := s.backendCalls + 1
             nextRid := s.nextRid + 1 }
  else
    let cacheKey := getCacheKey text voice
    match mapGet s.cache cacheKey with
    | some buffer =>
      -- 1. cache hit: return the stored buffer, no backend call
      { s with results := (caller, some buffer) :: s.results }
    | none =>
      match mapGet s.pendingRequests cacheKey with
      | some rid =>
        -- 2. a request for this key is pending: share its eventual result
        { s with waiters := (rid, caller) :: s.waiters }
      | none =>
        -- 3. issue exactly one backend call and register it as pending
        { s with pendingRequests := mapSet s.pendingRequests cacheKey s.nextRid
                 inFlight := (s.nextRid, cacheKey) :: s.inFlight
                 waiters := (s.nextRid, caller) :: s.waiters
                 backendCalls := s.backendCalls + 1
                 nextRid := s.nextRid + 1 }

/-- The backend call `rid` resolves with `buffer`: the request body stores
the buffer in the cache, the `finally` clause removes the pending marker,
and every caller awaiting the promise receives the buffer. -/
def completeSuccess (rid : Nat) (buffer : Buffer) (s : TTSState) : TTSState :=
  match mapGet s.inFlight rid with
  | none => s
  | some cacheKey =>
    { s with cache := mapSet s.cache cacheKey buffer
             pendingRequests := mapErase s.pendingRequests cacheKey
             inFlight := mapErase s.inFlight rid
             waiters := s.waiters.filter (fun w => !(w.1 == rid))
             results := ((s.waiters.filter (fun w => w.1 == rid)).map
               (fun w => (w.2, some buffer))) ++ s.results }

/-- The backend call `rid` rejects: the `finally` clause removes the
pending marker, the cache is untouched, and the failure propagates to
every caller awaiting the promise. -/
def completeFailure (rid : Nat) (s : TTSState) : TTSState :=
  match mapGet s.inFlight rid with
  | none => s
  | some cacheKey =>
    { s with pendingRequests := mapErase s.pendingRequests cacheKey
             inFlight := mapErase s.inFlight rid
             waiters := s.waiters.filter (fun w => !(w.1 == rid))
             results := ((s.waiters.filter (fun w => w.1 == rid)).map
               (fun w => (w.2, (none : Option Buffer)))) ++ s.results }

/-- `clearCache` of tts.ts lines 130-133: empty both tables; backend calls
already in flight are not cancelled. -/
def clearCache (s : TTSState) : TTSState :=
  { s with cache := [], pendingRequests := [] }

/-! ### ReadingOrchestrator (src/App.tsx)

The reading loop `readNext` (lines 223-271), the handlers `handleStart`
(273-290), `handleStop` (292-295), `resetReading` (297-305),
`handleNextTurn` (58-71) and the transcript handler `recognition.onresult`
(82-121) are embedded as atomic transitions on a single state.  The
awaited `speak` call of each auto-read line is resolved by the next entry
of an external event list: either playback succeeds (optionally with a
`stop()` issued while it was playing, which clears the playing flag before
line 265 checks it), or synthesis/playback fails. -/

/-- The session configuration: parsed script, the role chosen by the user,
and the role → voice assignments. -/
structure OrchConfig where
  script : ScriptData
  userRole : String
  assignments : List (String × String)

/-- The orchestrator state: `currentLineIndex` (-1 = not started), the
`isPlaying` flag (state and ref move together in an atomic transition),
the `readingInProgress` ref, the synthesis requests issued so far (line
index and voice), the toasts raised, and the last transcript shown. -/
structure OrchState where
  currentLineIndex : Int
  isPlaying : Bool
  readingInProgress : Bool
  synthesized : List (Nat × String)
  toasts : List String
  lastTranscript : String
deriving Repr, DecidableEq

/-- Outcome of one awaited `ttsService.speak` call. -/
inductive PlayEvent where
  /-- Playback finished; `stoppedDuring` records whether `handleStop` ran
  while the line was playing. -/
  | ok (stoppedDuring : Bool)
  /-- Synthesis or playback failed. -/
  | err
deriving Repr, DecidableEq

/-- `a.trim().toLowerCase() === b.trim().toLowerCase()`, the role
comparison of App.tsx lines 100, 204, 241 and 504. -/
def roleEq (a b : String) : Bool := jsToLower (jsTrim a) == jsToLower (jsTrim b)

/-- `assignments[role] || 'Kore'` of App.tsx line 249 (JavaScript `||`
also replaces an empty-string assignment). -/
def voiceFor (cfg : OrchConfig) (role : String) : String :=
  match mapGet cfg.assignments role with
  | none => "Kore"
  | some v => if v = "" then "Kore" else v

/-- The reading loop `readNext(index)` of App.tsx lines 223-271, consuming
one playback event per auto-read line. -/
def readNext (cfg : OrchConfig) : List PlayEvent → Nat → OrchState → OrchState
  | events, index, s =>
    -- line 226: if (!isPlayingRef.current || index >= lines.length)
    if !s.isPlaying || decide (cfg.script.lines.length ≤ index) then
      if decide (cfg.script.lines.length ≤ index) then
        { s with isPlaying := false, readingInProgress := false
                 toasts := "The script reading is complete!" :: s.toasts }
      else { s with readingInProgress := false }
    else
      match cfg.script.lines.get? index with
      | none => s  -- unreachable: index < lines.length here
      | some line =>
        let s := { s with readingInProgress := true, currentLineIndex := (index : Int) }
        -- line 241: stop if it is the user's turn
        if roleEq line.role cfg.userRole then
          { s with isPlaying := false, readingInProgress := false }
        else
          let s := { s with synthesized := (index, voiceFor cfg line.role) :: s.synthesized }
          match events with
          | [] => s  -- playback still outstanding: the run is truncated here
          | event :: rest =>
            match event with
            | .err =>
              { s with toasts := "TTS Error" :: s.toasts
                       isPlaying := false, readingInProgress := false }
            | .ok stoppedDuring =>
              let s := if stoppedDuring then { s with isPlaying := false } else s
              -- line 265: continue to next only if still active
              if s.isPlaying then readNext cfg rest (index + 1) s
              else { s with readingInProgress := false }

/-- `handleStart` of App.tsx lines 273-290 (also the RESUME button). -/
def handleStart (cfg : OrchConfig) (events : List PlayEvent) (s : OrchState) : OrchState :=
  let s := { s with isPlaying := true }
  let startIndex : Nat := if s.currentLineIndex = -1 then 0 else s.currentLineIndex.toNat
  if !s.readingInProgress then readNext cfg events startIndex s else s

/-- `handleStop` of App.tsx lines 292-295. -/
def handleStop (s : OrchState) : OrchState := { s with isPlaying := false }

/-- `resetReading` of App.tsx lines 297-305. -/
def resetReading (s : OrchState) : OrchState :=
  { s with isPlaying := false, currentLineIndex := -1, readingInProgress := false }

/-- `handleNextTurn` of App.tsx lines 58-71: advance past the user's
line (triggered by speech match or the I-FINISHED-MY-LINE button). -/
def handleNextTurn (cfg : OrchConfig) (events : List PlayEvent) (s : OrchState) : OrchState :=
  let nextIndex : Int := s.currentLineIndex + 1
  if nextIndex < (cfg.script.lines.length : Int) then
    readNext cfg events nextIndex.toNat { s with isPlaying := true }
  else
    { resetReading s with toasts := "End of script reached!" :: s.toasts }

/-- The I-FINISHED-MY-LINE button for line `idx` is rendered exactly when
`isActive && !isPlaying && isUserLine` (App.tsx line 530); a manual
advance for that turn can only fire while this holds. -/
def manualNextEnabled (cfg : OrchConfig) (idx : Nat) (s : OrchState) : Bool :=
  (s.currentLineIndex == (idx : Int)) && !s.isPlaying &&
  (match cfg.script.lines.get? idx with
   | some line => roleEq line.role cfg.userRole
   | none => false)

/-- The transcript handler `recognition.onresult` of App.tsx lines 82-121,
fed one recognized fragment (`isFinal` tells whether a final transcript
was present).  Line 94 trims and lowercases the fragment before use. -/
def transcriptEvent (cfg : OrchConfig) (fragment : String) (isFinal : Bool)
    (events : List PlayEvent) (s : OrchState) : OrchState :=
  let transcript := jsToLower (jsTrim fragment)
  let s := if transcript ≠ "" then { s with lastTranscript := transcript } else s
  -- line 98: if (script && currentLineIndex >= 0 && !isPlaying)
  if 0 ≤ s.currentLineIndex ∧ s.isPlaying = false then
    match cfg.script.lines.get? s.currentLineIndex.toNat with
    | none => s
    | some line =>
      if roleEq line.role cfg.userRole then
        if isTurnComplete line.text fragment isFinal then handleNextTurn cfg events s
        else s
      else s
  else s

/-- Parser state invariant used for C8: the collected role names are
exactly the roles of the collected dialogue lines, without duplicates. -/
def RolesMatch (st : ParseState) : Prop :=
  ∀ r, r ∈ st.roles ↔ ∃ l, l ∈ st.revLines ∧ l.role = r

instance : IsTotal String strOrder := ⟨fun a b => le_total a.data b.data⟩

instance : IsTrans String strOrder := ⟨fun _ _ _ h h2 => le_trans h h2⟩

/-- Demo script used by the orchestrator witnesses: the end-to-end
scenario text of the spec. -/
def demoScript : ScriptData := parseScript "Alice: Hello there.\nBob: Hi Alice!"

/-- Demo configuration: the user plays Alice, Bob has a voice. -/
def demoCfg : OrchConfig :=
  { script := demoScript, userRole := "Alice", assignments := [("Bob", "Puck")] }

/-- Demo configuration with no voice assignment at all. -/
def demoCfgNoVoice : OrchConfig :=
  { script := demoScript, userRole := "Alice", assignments := [] }

/-- A bare orchestrator state. -/
def mkState (idx : Int) (playing inProgress : Bool) : OrchState :=
  { currentLineIndex := idx, isPlaying := playing, readingInProgress := inProgress,
    synthesized := [], toasts := [], lastTranscript := "" }

/-- Modelled from the spec's words for comparison with the source's
`isInitialPart` (spec §4.1 step 3): the label is "a single capital letter
followed by a period" and "the remainder also begins with a capital letter
and a period". -/
def specInitialsReject (label content : String) : Bool :=
  (match label.data with
   | [c] => isCapLetter c
   | _ => false) &&
  (match content.data with
   | c1 :: c2 :: _ => isCapLetter c1 && (c2 == '.')
   | _ => false)

end DramaBuddy

namespace DramaBuddy

/-! ### Theorems -/

/-- C1: the turn-completion check returns true exactly when the fragment
is final and either the last normalized expected word was spoken or the
spoken word count reaches 0.7 of the expected word count; together with
the three concrete cases named by the claim. -/
theorem c1_isTurnComplete_iff :
    (∀ (e t : String) (f : Bool),
      isTurnComplete e t f = true ↔
        (f = true ∧
          ((spokenWords t).contains ((expectedWords e).getLastD "") = true ∨
            10 * (spokenWords t).length ≥ 7 * (expectedWords e).length))) ∧
    isTurnComplete "To be or not to be" "to be or not to be" true = true ∧
    isTurnComplete "To be or not to be" "to be or not to be" false = false ∧
    isTurnComplete "hello world foo bar baz" "xyz" true = false := by
  refine ⟨fun e t f => ?_, by decide, by decide, by decide⟩
  simp [isTurnComplete, turnMatchCore, expectedWords, spokenWords,
    Bool.and_eq_true, Bool.or_eq_true]

theorem appendToLast_preserves (st : ParseState) (raw : String) (h : RolesMatch st) :
    RolesMatch (appendToLast st raw) ∧ (appendToLast st raw).roles = st.roles := by
  cases hrl : st.revLines with
  | nil => exact ⟨by simpa [appendToLast, hrl] using h, by simp [appendToLast, hrl]⟩
  | cons l rest =>
    refine ⟨fun r => ?_, by simp [appendToLast, hrl]⟩
    have hr := h r
    simp only [hrl] at hr
    simp only [appendToLast, hrl]
    simpa using hr

theorem titleOrContinuation_preserves (st : ParseState) (i : Nat) (raw : String)
    (h : RolesMatch st) :
    RolesMatch (titleOrContinuation st i raw) ∧ (titleOrContinuation st i raw).roles = st.roles := by
  unfold titleOrContinuation
  split
  · exact ⟨fun r => by simpa using h r, rfl⟩
  · split
    · exact appendToLast_preserves st raw h
    · exact ⟨h, rfl⟩

theorem processLine_preserves (st : ParseState) (i : Nat) (raw : String)
    (h : RolesMatch st) (hnd : st.roles.Nodup) :
    RolesMatch (processLine st i raw) ∧ (processLine st i raw).roles.Nodup := by
  unfold processLine
  split
  · -- dash continuation
    obtain ⟨h1, h2⟩ := appendToLast_preserves st raw h
    exact ⟨h1, h2 ▸ hnd⟩
  · split
    · next m1 m2 _ =>
      split
      · -- a new dialogue line is pushed
        by_cases hmem : jsTrim m1 ∈ st.roles
        · have hct : st.roles.contains (jsTrim m1) = true := by simpa using hmem
          refine ⟨fun r => ?_, by rw [if_pos hct]; exact hnd⟩
          rw [if_pos hct]
          simp only [List.mem_cons]
          constructor
          · intro hr
            obtain ⟨l, hl, hrole⟩ := (h r).mp hr
            exact ⟨l, Or.inr hl, hrole⟩
          · rintro ⟨l, hl | hl, hrole⟩
            · subst hl
              exact hrole ▸ hmem
            · exact (h r).mpr ⟨l, hl, hrole⟩
        · have hct : ¬ (st.roles.contains (jsTrim m1) = true) := by simpa using hmem
          constructor
          · intro r
            rw [if_neg hct]
            simp only [List.mem_cons, List.mem_append, List.mem_singleton,
              List.not_mem_nil, or_false]
            constructor
            · rintro (hr | hr)
              · obtain ⟨l, hl, hrole⟩ := (h r).mp hr
                exact ⟨l, Or.inr hl, hrole⟩
              · exact ⟨{ role := jsTrim m1, text := jsTrim m2, id := i }, Or.inl rfl, hr.symm⟩
            · rintro ⟨l, hl | hl, hrole⟩
              · subst hl
                exact Or.inr hrole.symm
              · exact Or.inl ((h r).mpr ⟨l, hl, hrole⟩)
          · rw [if_neg hct]
            simpa [List.nodup_append] using ⟨hnd, hmem⟩
      · -- fallback
        obtain ⟨h1, h2⟩ := titleOrContinuation_preserves st i raw h
        exact ⟨h1, h2 ▸ hnd⟩
    · obtain ⟨h1, h2⟩ := titleOrContinuation_preserves st i raw h
      exact ⟨h1, h2 ▸ hnd⟩

theorem foldl_processLine_inv (l : List (Nat × String)) (st : ParseState)
    (h : RolesMatch st) (hnd : st.roles.Nodup) :
    RolesMatch (l.foldl (fun st p => processLine st p.1 p.2) st) ∧
    (l.foldl (fun st p => processLine st p.1 p.2) st).roles.Nodup := by
  induction l generalizing st with
  | nil => exact ⟨h, hnd⟩
  | cons p rest ih =>
    obtain ⟨h1, h2⟩ := processLine_preserves st p.1 p.2 h hnd
    exact ih (processLine st p.1 p.2) h1 h2

/-- C8: the roles of a parsed script are exactly the distinct role values
among its lines, without duplicates and sorted. -/
theorem c8_roles_exact_nodup_sorted (text : String) :
    (∀ r, r ∈ (parseScript text).roles ↔ ∃ l ∈ (parseScript text).lines, l.role = r) ∧
    (parseScript text).roles.Nodup ∧
    (parseScript text).roles.Sorted strOrder := by
  have key : ∀ st : ParseState, RolesMatch st → st.roles.Nodup →
      (∀ r, r ∈ jsSortStrings st.roles ↔ ∃ l ∈ st.revLines.reverse, l.role = r) ∧
      (jsSortStrings st.roles).Nodup ∧ (jsSortStrings st.roles).Sorted strOrder := by
    intro st hm hnd
    have hperm := List.perm_insertionSort strOrder st.roles
    refine ⟨fun r => ?_, hperm.nodup_iff.mpr hnd,
      List.sorted_insertionSort strOrder st.roles⟩
    rw [jsSortStrings, hperm.mem_iff]
    simpa [List.mem_reverse] using hm r
  have hinit : RolesMatch { revLines := [], roles := [], title := "Untitled Script" } := by
    intro r
    simp [RolesMatch]
  obtain ⟨hm, hnd⟩ := foldl_processLine_inv
    ((((splitNewlines text.data).map (fun cs => jsTrim (String.mk cs))).filter
      (fun l => !l.data.isEmpty)).enum)
    { revLines := [], roles := [], title := "Untitled Script" }
    hinit List.nodup_nil
  obtain ⟨k1, k2, k3⟩ := key _ hm hnd
  exact ⟨fun r => by simpa only [parseScript] using k1 r,
    by simpa only [parseScript] using k2, by simpa only [parseScript] using k3⟩

/-- Helper for C9: the source's initials test holds exactly when the role
candidate is a single character (of any kind) and the content starts with
a capital Latin or Cyrillic letter (no period required). -/
theorem isInitialPart_iff (rc content : String) :
    isInitialPart rc content = true ↔
      (rc.data.length = 1 ∧ ∃ c cs, content.data = c :: cs ∧ isCapLetter c = true) := by
  obtain ⟨cdata⟩ := content
  cases cdata with
  | nil => simp [isInitialPart]
  | cons c cs => simp [isInitialPart, Nat.beq_eq_true_eq]

/-- C9 counterexample: the line `A: Bob` — the label `A` passes every
other check, the remainder `Bob` does not begin with a capital letter
followed by a period, yet the source rejects the label (the period in
`/^[А-ЯA-Z]\.?/` is optional), so no dialogue line is produced. -/
theorem c9_counterexample :
    isInitialPart "A" "Bob" = true ∧
    specInitialsReject "A" "Bob" = false ∧
    (parseScript "A: Bob").lines = [] := by
  decide

/-- C9 amended: a matched label passing the length, comma, word-count and
digits checks is rejected exactly when it consists of a single character
and the remainder begins with a capital Latin or Cyrillic letter — the
period after that letter is optional and the label itself need not be a
capital letter. -/
theorem c9_initials_rejection (rc content : String)
    (h1 : 1 ≤ rc.data.length) (h2 : rc.data.length ≤ 35)
    (h3 : rc.data.contains ',' = false)
    (h4 : (jsSplitWs rc).length ≤ 4)
    (h5 : isDigitsOrWs rc = false) :
    isLikelyRole rc content = false ↔
      (rc.data.length = 1 ∧ ∃ c cs, content.data = c :: cs ∧ isCapLetter c = true) := by
  have hb : isLikelyRole rc content = !isInitialPart rc content := by
    unfold isLikelyRole
    rw [decide_eq_true h1, decide_eq_true h2, h3, decide_eq_true h4, h5]
    simp
  rw [← isInitialPart_iff, hb]
  constructor
  · intro hf
    cases hi : isInitialPart rc content
    · rw [hi] at hf
      exact absurd hf (by decide)
    · rfl
  · intro hr
    rw [hr]
    rfl

/-- C9 amended, witness at the concrete input `A` / `Bob`. -/
theorem c9_initials_rejection_witness :
    1 ≤ ("A" : String).data.length ∧ ("A" : String).data.length ≤ 35 ∧
    ("A" : String).data.contains ',' = false ∧ (jsSplitWs "A").length ≤ 4 ∧
    isDigitsOrWs "A" = false ∧
    (isLikelyRole "A" "Bob" = false ↔
      (("A" : String).data.length = 1 ∧
        ∃ c cs, ("Bob" : String).data = c :: cs ∧ isCapLetter c = true)) :=
  ⟨by decide, by decide, by decide, by decide, by decide,
    c9_initials_rejection "A" "Bob" (by decide) (by decide) (by decide) (by decide) (by decide)⟩

/-! Association-list map lemmas for the cache theorems. -/

theorem mapGet_mapSet_self {κ α : Type} [BEq κ] [LawfulBEq κ]
    (l : List (κ × α)) (k : κ) (v : α) : mapGet (mapSet l k v) k = some v := by
  simp [mapSet, mapGet]

theorem mapGet_mapErase_self {κ α : Type} [BEq κ]
    (l : List (κ × α)) (k : κ) : mapGet (mapErase l k) k = none := by
  induction l with
  | nil => rfl
  | cons p rest ih =>
    rw [mapErase, List.filter_cons]
    cases hpk : p.1 == k with
    | false => simpa [mapGet, hpk, mapErase] using ih
    | true => simpa [mapErase] using ih

/-- C2: a fetch that finds a stored cache entry returns it with no backend
call; and two fetches for the same key while the first backend call is in
flight cause exactly one backend invocation, after which both callers
receive the same buffer. -/
theorem c2_cache_hit_and_coalescing (text voice : String) (c c1 c2 : Nat) (b : Buffer)
    (s : TTSState)
    (hdp : s.useDirectPlayback = false)
    (hc12 : c1 ≠ c2)
    (hcache : mapGet s.cache (getCacheKey text voice) = none)
    (hpend : mapGet s.pendingRequests (getCacheKey text voice) = none)
    (hw : ∀ p ∈ s.waiters, p.1 < s.nextRid) :
    (∀ (s0 : TTSState) (b0 : Buffer), s0.useDirectPlayback = false →
      mapGet s0.cache (getCacheKey text voice) = some b0 →
      getAudioBuffer c text voice s0 = { s0 with results := (c, some b0) :: s0.results }) ∧
    (getAudioBuffer c2 text voice (getAudioBuffer c1 text voice s)).backendCalls
      = s.backendCalls + 1 ∧
    (completeSuccess s.nextRid b
      (getAudioBuffer c2 text voice (getAudioBuffer c1 text voice s))).backendCalls
      = s.backendCalls + 1 ∧
    mapGet (completeSuccess s.nextRid b
      (getAudioBuffer c2 text voice (getAudioBuffer c1 text voice s))).results c1
      = some (some b) ∧
    mapGet (completeSuccess s.nextRid b
      (getAudioBuffer c2 text voice (getAudioBuffer c1 text voice s))).results c2
      = some (some b) := by
  have hwf : s.waiters.filter (fun w => w.1 == s.nextRid) = [] :=
    List.filter_eq_nil_iff.mpr (fun p hp => by simpa using Nat.ne_of_lt (hw p hp))
  have hbeq : (c2 == c1) = false := by simpa using Ne.symm hc12
  refine ⟨fun s0 b0 h0 hc0 => by simp [getAudioBuffer, h0, hc0], ?_, ?_, ?_, ?_⟩ <;>
    simp [getAudioBuffer, completeSuccess, hdp, hcache, hpend,
      mapGet_mapSet_self, mapGet, hwf, hbeq, List.filter_cons]

/-- C3: a failing backend call removes the pending marker, leaves no cache
entry for the key, delivers the failure to both awaiting callers, and a
subsequent fetch for the same key issues a fresh backend call. -/
theorem c3_failure_not_cached (text voice : String) (c1 c2 c3 : Nat) (s : TTSState)
    (hdp : s.useDirectPlayback = false)
    (hc12 : c1 ≠ c2)
    (hcache : mapGet s.cache (getCacheKey text voice) = none)
    (hpend : mapGet s.pendingRequests (getCacheKey text voice) = none)
    (hw : ∀ p ∈ s.waiters, p.1 < s.nextRid) :
    mapGet (completeFailure s.nextRid
      (getAudioBuffer c2 text voice (getAudioBuffer c1 text voice s))).pendingRequests
      (getCacheKey text voice) = none ∧
    mapGet (completeFailure s.nextRid
      (getAudioBuffer c2 text voice (getAudioBuffer c1 text voice s))).cache
      (getCacheKey text voice) = none ∧
    mapGet (completeFailure s.nextRid
      (getAudioBuffer c2 text voice (getAudioBuffer c1 text voice s))).results c1
      = some none ∧
    mapGet (completeFailure s.nextRid
      (getAudioBuffer c2 text voice (getAudioBuffer c1 text voice s))).results c2
      = some none ∧
    (getAudioBuffer c3 text voice (completeFailure s.nextRid
      (getAudioBuffer c2 text voice (getAudioBuffer c1 text voice s)))).backendCalls
      = s.backendCalls + 2 ∧
    mapGet (getAudioBuffer c3 text voice (completeFailure s.nextRid
      (getAudioBuffer c2 text voice (getAudioBuffer c1 text voice s)))).pendingRequests
      (getCacheKey text voice) = some (s.nextRid + 1) := by
  have hwf : s.waiters.filter (fun w => w.1 == s.nextRid) = [] :=
    List.filter_eq_nil_iff.mpr (fun p hp => by simpa using Nat.ne_of_lt (hw p hp))
  have hbeq : (c2 == c1) = false := by simpa using Ne.symm hc12
  refine ⟨?_, ?_, ?_, ?_, ?_, ?_⟩ <;>
    simp [getAudioBuffer, completeFailure, hdp, hcache, hpend,
      mapGet_mapSet_self, mapGet_mapErase_self, mapGet, hwf, hbeq, List.filter_cons]

/-- C4 counterexample: a fetch is issued, `clearCache` runs while the
backend call is in flight, and the call then resolves; its buffer IS
stored in the cache after the clear (the claim says it never is). -/
theorem c4_counterexample :
    mapGet (clearCache (getAudioBuffer 0 "hello" "Kore" initTTS)).cache
      (getCacheKey "hello" "Kore") = none ∧
    mapGet (completeSuccess 0 42 (clearCache (getAudioBuffer 0 "hello" "Kore" initTTS))).cache
      (getCacheKey "hello" "Kore") = some 42 := by
  decide

/-- C4 amended: `clearCache` empties both tables and does not cancel
in-flight backend calls; a call that resolves after the clear still
delivers its buffer to its awaiting callers and stores it in the cache, so
pre-clear results can reappear as cache entries. -/
theorem c4_clear_semantics (s : TTSState) (rid : Nat) (k : String) (b : Buffer) (c : Nat)
    (hin : mapGet s.inFlight rid = some k)
    (hwc : (rid, c) ∈ s.waiters) :
    (clearCache s).cache = [] ∧
    (clearCache s).pendingRequests = [] ∧
    (clearCache s).inFlight = s.inFlight ∧
    (c, some b) ∈ (completeSuccess rid b (clearCache s)).results ∧
    mapGet (completeSuccess rid b (clearCache s)).cache k = some b := by
  refine ⟨rfl, rfl, rfl, ?_, ?_⟩
  · simp only [completeSuccess, clearCache, hin]
    refine List.mem_append.mpr (Or.inl ?_)
    exact List.mem_map.mpr ⟨(rid, c), List.mem_filter.mpr ⟨hwc, by simp⟩, rfl⟩
  · simp [completeSuccess, clearCache, hin, mapGet_mapSet_self]

/-- C4 amended, witness: concrete trace fetch - clear - resolve. -/
theorem c4_clear_semantics_witness :
    mapGet (getAudioBuffer 0 "hello" "Kore" initTTS).inFlight 0
        = some (getCacheKey "hello" "Kore") ∧
    (0, 0) ∈ (getAudioBuffer 0 "hello" "Kore" initTTS).waiters ∧
    ((clearCache (getAudioBuffer 0 "hello" "Kore" initTTS)).cache = [] ∧
     (clearCache (getAudioBuffer 0 "hello" "Kore" initTTS)).pendingRequests = [] ∧
     (clearCache (getAudioBuffer 0 "hello" "Kore" initTTS)).inFlight
        = (getAudioBuffer 0 "hello" "Kore" initTTS).inFlight ∧
     (0, some 42) ∈ (completeSuccess 0 42
        (clearCache (getAudioBuffer 0 "hello" "Kore" initTTS))).results ∧
     mapGet (completeSuccess 0 42
        (clearCache (getAudioBuffer 0 "hello" "Kore" initTTS))).cache
        (getCacheKey "hello" "Kore") = some 42) :=
  ⟨by decide, by decide,
    c4_clear_semantics (getAudioBuffer 0 "hello" "Kore" initTTS) 0
      (getCacheKey "hello" "Kore") 42 0 (by decide) (by decide)⟩

/-- C2 witness: concrete two-caller coalescing trace from a fresh
service. -/
theorem c2_cache_hit_and_coalescing_witness :
    initTTS.useDirectPlayback = false ∧ (0 : Nat) ≠ 1 ∧
    mapGet initTTS.cache (getCacheKey "hi" "Puck") = none ∧
    mapGet initTTS.pendingRequests (getCacheKey "hi" "Puck") = none ∧
    (∀ p ∈ initTTS.waiters, p.1 < initTTS.nextRid) ∧
    ((∀ (s0 : TTSState) (b0 : Buffer), s0.useDirectPlayback = false →
      mapGet s0.cache (getCacheKey "hi" "Puck") = some b0 →
      getAudioBuffer 2 "hi" "Puck" s0 = { s0 with results := (2, some b0) :: s0.results }) ∧
    (getAudioBuffer 1 "hi" "Puck" (getAudioBuffer 0 "hi" "Puck" initTTS)).backendCalls
      = initTTS.backendCalls + 1 ∧
    (completeSuccess initTTS.nextRid 7
      (getAudioBuffer 1 "hi" "Puck" (getAudioBuffer 0 "hi" "Puck" initTTS))).backendCalls
      = initTTS.backendCalls + 1 ∧
    mapGet (completeSuccess initTTS.nextRid 7
      (getAudioBuffer 1 "hi" "Puck" (getAudioBuffer 0 "hi" "Puck" initTTS))).results 0
      = some (some 7) ∧
    mapGet (completeSuccess initTTS.nextRid 7
      (getAudioBuffer 1 "hi" "Puck" (getAudioBuffer 0 "hi" "Puck" initTTS))).results 1
      = some (some 7)) :=
  ⟨rfl, by decide, rfl, rfl, by simp [initTTS],
    c2_cache_hit_and_coalescing "hi" "Puck" 2 0 1 7 initTTS rfl (by decide) rfl rfl
      (by simp [initTTS])⟩

/-- C3 witness: concrete failing trace from a fresh service. -/
theorem c3_failure_not_cached_witness :
    initTTS.useDirectPlayback = false ∧ (0 : Nat) ≠ 1 ∧
    mapGet initTTS.cache (getCacheKey "hi" "Puck") = none ∧
    mapGet initTTS.pendingRequests (getCacheKey "hi" "Puck") = none ∧
    (∀ p ∈ initTTS.waiters, p.1 < initTTS.nextRid) ∧
    (mapGet (completeFailure initTTS.nextRid
      (getAudioBuffer 1 "hi" "Puck" (getAudioBuffer 0 "hi" "Puck" initTTS))).pendingRequests
      (getCacheKey "hi" "Puck") = none ∧
    mapGet (completeFailure initTTS.nextRid
      (getAudioBuffer 1 "hi" "Puck" (getAudioBuffer 0 "hi" "Puck" initTTS))).cache
      (getCacheKey "hi" "Puck") = none ∧
    mapGet (completeFailure initTTS.nextRid
      (getAudioBuffer 1 "hi" "Puck" (getAudioBuffer 0 "hi" "Puck" initTTS))).results 0
      = some none ∧
    mapGet (completeFailure initTTS.nextRid
      (getAudioBuffer 1 "hi" "Puck" (getAudioBuffer 0 "hi" "Puck" initTTS))).results 1
      = some none ∧
    (getAudioBuffer 2 "hi" "Puck" (completeFailure initTTS.nextRid
      (getAudioBuffer 1 "hi" "Puck" (getAudioBuffer 0 "hi" "Puck" initTTS)))).backendCalls
      = initTTS.backendCalls + 2 ∧
    mapGet (getAudioBuffer 2 "hi" "Puck" (completeFailure initTTS.nextRid
      (getAudioBuffer 1 "hi" "Puck" (getAudioBuffer 0 "hi" "Puck" initTTS)))).pendingRequests
      (getCacheKey "hi" "Puck") = some (initTTS.nextRid + 1)) :=
  ⟨rfl, by decide, rfl, rfl, by simp [initTTS],
    c3_failure_not_cached "hi" "Puck" 0 1 2 initTTS rfl (by decide) rfl rfl
      (by simp [initTTS])⟩

/-! Orchestrator lemmas. -/

theorem get?_some_lt_length {α : Type} (l : List α) (n : Nat) (a : α)
    (h : l.get? n = some a) : n < l.length := by
  cases Nat.lt_or_ge n l.length with
  | inl h1 => exact h1
  | inr h1 =>
    rw [List.get?_eq_none.mpr h1] at h
    cases h

/-- Entering `readNext` past the end of the script only clears the flags
and reports completion; the current index is untouched. -/
theorem readNext_out_of_range (cfg : OrchConfig) (events : List PlayEvent) (j : Nat)
    (s : OrchState) (hj : cfg.script.lines.length ≤ j) :
    readNext cfg events j s =
      { s with isPlaying := false, readingInProgress := false,
               toasts := "The script reading is complete!" :: s.toasts } := by
  unfold readNext
  rw [decide_eq_true hj]
  simp

/-- While actively stepping from a valid index, `readNext` never moves the
current index below the index it entered at. -/
theorem readNext_index_ge (cfg : OrchConfig) (events : List PlayEvent) :
    ∀ (j : Nat) (s : OrchState), s.isPlaying = true → j < cfg.script.lines.length →
      (j : Int) ≤ (readNext cfg events j s).currentLineIndex := by
  induction events with
  | nil =>
    intro j s hp hj
    unfold readNext
    split
    · next hcond =>
      rw [hp, decide_eq_false (Nat.not_le.mpr hj)] at hcond
      exact absurd hcond (by decide)
    · split
      · next hget => exact absurd (List.get?_eq_none.mp hget) (Nat.not_le.mpr hj)
      · split
        · simp
        · simp
  | cons e rest ih =>
    intro j s hp hj
    unfold readNext
    split
    · next hcond =>
      rw [hp, decide_eq_false (Nat.not_le.mpr hj)] at hcond
      exact absurd hcond (by decide)
    · split
      · next hget => exact absurd (List.get?_eq_none.mp hget) (Nat.not_le.mpr hj)
      · next line hline =>
        split
        · simp
        · cases e with
          | err => simp
          | ok st =>
            cases st with
            | true => simp
            | false =>
              simp only [Bool.false_eq_true, if_false, hp, if_true]
              by_cases hj1 : j + 1 < cfg.script.lines.length
              · refine le_trans (by exact_mod_cast Nat.le_succ j) (ih (j + 1) _ rfl hj1)
              · rw [readNext_out_of_range cfg rest (j + 1) _ (Nat.le_of_not_lt hj1)]

/-- Synthesis requests are never retracted by the reading loop. -/
theorem readNext_synth_mono (cfg : OrchConfig) (events : List PlayEvent) :
    ∀ (j : Nat) (s : OrchState) (x : Nat × String),
      x ∈ s.synthesized → x ∈ (readNext cfg events j s).synthesized := by
  induction events with
  | nil =>
    intro j s x hx
    unfold readNext
    split
    · split
      · simpa using hx
      · simpa using hx
    · split
      · exact hx
      · split
        · simpa using hx
        · simpa using Or.inr hx
  | cons e rest ih =>
    intro j s x hx
    unfold readNext
    split
    · split
      · simpa using hx
      · simpa using hx
    · split
      · exact hx
      · split
        · simpa using hx
        · cases e with
          | err => simpa using Or.inr hx
          | ok st =>
            cases st with
            | true => simpa using Or.inr hx
            | false =>
              simp only [Bool.false_eq_true, if_false]
              split
              · apply ih
                simpa using Or.inr hx
              · simpa using Or.inr hx

/-- Stepping into a line whose role matches the user role pauses there:
the index is set, the playing and progress flags are cleared, and nothing
else — in particular no synthesis request — happens. -/
theorem readNext_user_pause (cfg : OrchConfig) (events : List PlayEvent) (j : Nat)
    (s : OrchState) (line : ScriptLine)
    (hline : cfg.script.lines.get? j = some line)
    (huser : roleEq line.role cfg.userRole = true)
    (hp : s.isPlaying = true) :
    readNext cfg events j s =
      { s with currentLineIndex := (j : Int), isPlaying := false,
               readingInProgress := false } := by
  have hj : j < cfg.script.lines.length := get?_some_lt_length _ _ _ hline
  have hg : cfg.script.lines[j]? = some line := by
    rw [← List.get?_eq_getElem?]
    exact hline
  unfold readNext
  rw [hp, decide_eq_false (Nat.not_le.mpr hj)]
  simp [hg, huser]

/-- After an advance past the user line at index `i`, the current index
can never be `i` again within that call: stepping moves to `i + 1` or
beyond, and reaching the end resets the index to `-1`. -/
theorem handleNextTurn_index_ne (cfg : OrchConfig) (events : List PlayEvent)
    (s' : OrchState) (i : Nat) (hidx' : s'.currentLineIndex = (i : Int)) :
    (handleNextTurn cfg events s').currentLineIndex ≠ (i : Int) := by
  simp only [handleNextTurn]
  rw [hidx']
  by_cases hn : ((i : Int) + 1) < (cfg.script.lines.length : Int)
  · rw [if_pos hn]
    have htn : ((i : Int) + 1).toNat = i + 1 := by omega
    rw [htn]
    have hge := readNext_index_ge cfg events (i + 1) { s' with isPlaying := true } rfl
      (by exact_mod_cast hn)
    rw [hidx'] at hge
    intro heq
    rw [heq] at hge
    omega
  · rw [if_neg hn]
    simp only [resetReading]
    omega

/-- C5: stepping onto a line whose role matches the user role pauses at
that index without synthesizing; in particular a `start()` from the idle
state with a user-owned line 0 immediately awaits the user at index 0 with
nothing synthesized. -/
theorem c5_pause_on_user_line (cfg : OrchConfig) (s s0 : OrchState)
    (events events0 : List PlayEvent) (i : Nat) (line line0 : ScriptLine)
    (hline : cfg.script.lines.get? i = some line)
    (huser : roleEq line.role cfg.userRole = true)
    (hplay : s.isPlaying = true)
    (hline0 : cfg.script.lines.get? 0 = some line0)
    (huser0 : roleEq line0.role cfg.userRole = true)
    (h0idx : s0.currentLineIndex = -1)
    (h0rip : s0.readingInProgress = false) :
    readNext cfg events i s =
      { s with currentLineIndex := (i : Int), isPlaying := false,
               readingInProgress := false } ∧
    handleStart cfg events0 s0 =
      { s0 with currentLineIndex := 0, isPlaying := false, readingInProgress := false } := by
  refine ⟨readNext_user_pause cfg events i s line hline huser hplay, ?_⟩
  have h1 := readNext_user_pause cfg events0 0 { s0 with isPlaying := true } line0
    hline0 huser0 rfl
  unfold handleStart
  simp only [h0idx, h0rip] at h1
  simp [h0idx, h0rip, h1]

/-- C6: a `stop()` issued while line `i` is auto-playing prevents the
automatic continuation to `i + 1`, and a subsequent `resume()` steps again
from index `i` — not from `i + 1` and not from 0. -/
theorem c6_stop_then_resume (cfg : OrchConfig) (s : OrchState)
    (rest events2 : List PlayEvent) (i : Nat) (line : ScriptLine)
    (hline : cfg.script.lines.get? i = some line)
    (hnonuser : roleEq line.role cfg.userRole = false)
    (hplay : s.isPlaying = true) :
    readNext cfg (PlayEvent.ok true :: rest) i s =
      { s with currentLineIndex := (i : Int), isPlaying := false,
               readingInProgress := false,
               synthesized := (i, voiceFor cfg line.role) :: s.synthesized } ∧
    (∀ s2 : OrchState, s2.currentLineIndex = (i : Int) → s2.readingInProgress = false →
      handleStart cfg events2 s2 = readNext cfg events2 i { s2 with isPlaying := true }) := by
  constructor
  · have hj : i < cfg.script.lines.length := get?_some_lt_length _ _ _ hline
    have hg : cfg.script.lines[i]? = some line := by
      rw [← List.get?_eq_getElem?]
      exact hline
    unfold readNext
    rw [hplay, decide_eq_false (Nat.not_le.mpr hj)]
    simp [hg, hnonuser]
  · intro s2 h2idx h2rip
    have hne : ¬ (((i : Nat) : Int) = -1) := by omega
    unfold handleStart
    simp [h2idx, h2rip, hne]

/-- C10: during auto-reading, a non-user line whose role has no voice
assignment is synthesized with the hard-coded fallback voice `Kore`;
reading is not blocked. -/
theorem c10_missing_assignment_fallback (cfg : OrchConfig) (events : List PlayEvent)
    (i : Nat) (s : OrchState) (line : ScriptLine)
    (hline : cfg.script.lines.get? i = some line)
    (hnonuser : roleEq line.role cfg.userRole = false)
    (hplay : s.isPlaying = true)
    (hnoassign : mapGet cfg.assignments line.role = none) :
    voiceFor cfg line.role = "Kore" ∧
    (i, "Kore") ∈ (readNext cfg events i s).synthesized := by
  have hv : voiceFor cfg line.role = "Kore" := by
    simp [voiceFor, hnoassign]
  have hj : i < cfg.script.lines.length := get?_some_lt_length _ _ _ hline
  have hg : cfg.script.lines[i]? = some line := by
    rw [← List.get?_eq_getElem?]
    exact hline
  refine ⟨hv, ?_⟩
  cases events with
  | nil =>
    unfold readNext
    rw [hplay, decide_eq_false (Nat.not_le.mpr hj)]
    simp [hg, hnonuser, hv]
  | cons e rest =>
    unfold readNext
    rw [hplay, decide_eq_false (Nat.not_le.mpr hj)]
    cases e with
    | err => simp [hg, hnonuser, hv]
    | ok st =>
      cases st with
      | true => simp [hg, hnonuser, hv]
      | false =>
        simp [hg, hnonuser, hv]
        exact readNext_synth_mono cfg rest (i + 1) _ _ (by simp)

/-- C7: from a pause on the user line at index `i`, a matching final
transcript event performs the advance; afterwards the current index is no
longer `i`, any transcript event arriving while playback is active changes
nothing but the displayed transcript, and the manual I-FINISHED-MY-LINE
action for turn `i` is disabled — so exactly one advancement per user turn
wins and the competing trigger is a no-op. -/
theorem c7_advance_exactly_once (cfg : OrchConfig) (s : OrchState)
    (events : List PlayEvent) (i : Nat) (line : ScriptLine) (frag : String)
    (hidx : s.currentLineIndex = (i : Int))
    (hplay : s.isPlaying = false)
    (hline : cfg.script.lines.get? i = some line)
    (huser : roleEq line.role cfg.userRole = true)
    (hmatch : isTurnComplete line.text frag true = true) :
    transcriptEvent cfg frag true events s =
      handleNextTurn cfg events
        (if jsToLower (jsTrim frag) ≠ "" then
          { s with lastTranscript := jsToLower (jsTrim frag) } else s) ∧
    (transcriptEvent cfg frag true events s).currentLineIndex ≠ (i : Int) ∧
    (∀ (frag2 : String) (f2 : Bool) (ev2 : List PlayEvent) (s2 : OrchState),
      s2.isPlaying = true →
      transcriptEvent cfg frag2 f2 ev2 s2 =
        (if jsToLower (jsTrim frag2) ≠ "" then
          { s2 with lastTranscript := jsToLower (jsTrim frag2) } else s2)) ∧
    (∀ s3 : OrchState, s3.currentLineIndex ≠ (i : Int) →
      manualNextEnabled cfg i s3 = false) := by
  have hg : cfg.script.lines[i]? = some line := by
    rw [← List.get?_eq_getElem?]
    exact hline
  have hconj1 : transcriptEvent cfg frag true events s =
      handleNextTurn cfg events
        (if jsToLower (jsTrim frag) ≠ "" then
          { s with lastTranscript := jsToLower (jsTrim frag) } else s) := by
    unfold transcriptEvent
    by_cases ht : jsToLower (jsTrim frag) = "" <;>
      simp [ht, hidx, hplay, hg, huser, hmatch]
  have hS1idx : (if jsToLower (jsTrim frag) ≠ "" then
      { s with lastTranscript := jsToLower (jsTrim frag) } else s).currentLineIndex
      = (i : Int) := by
    by_cases ht : jsToLower (jsTrim frag) = "" <;> simp [ht, hidx]
  refine ⟨hconj1, ?_, ?_, ?_⟩
  · rw [hconj1]
    exact handleNextTurn_index_ne cfg events _ i hS1idx
  · intro frag2 f2 ev2 s2 hp2
    unfold transcriptEvent
    by_cases ht2 : jsToLower (jsTrim frag2) = "" <;> simp [ht2, hp2]
  · intro s3 h3
    have hb : (s3.currentLineIndex == (i : Int)) = false := beq_eq_false_iff_ne.mpr h3
    simp [manualNextEnabled, hb]

/-- C5 witness: the spec's end-to-end scenario — Alice owns line 0;
`start()` from idle awaits the user at index 0 with nothing synthesized. -/
theorem c5_pause_on_user_line_witness :
    demoCfg.script.lines.get? 0 = some { role := "Alice", text := "Hello there.", id := 0 } ∧
    roleEq ({ role := "Alice", text := "Hello there.", id := 0 } : ScriptLine).role
      demoCfg.userRole = true ∧
    (mkState (-1) true false).isPlaying = true ∧
    (mkState (-1) false false).currentLineIndex = -1 ∧
    (mkState (-1) false false).readingInProgress = false ∧
    (readNext demoCfg [] 0 (mkState (-1) true false) =
      { mkState (-1) true false with
        currentLineIndex := ((0 : Nat) : Int),
        isPlaying := false, readingInProgress := false } ∧
     handleStart demoCfg [] (mkState (-1) false false) =
      { mkState (-1) false false with
        currentLineIndex := 0, isPlaying := false,
        readingInProgress := false }) :=
  ⟨by decide, by decide, by decide, by decide, by decide,
    c5_pause_on_user_line demoCfg (mkState (-1) true false) (mkState (-1) false false)
      [] [] 0 { role := "Alice", text := "Hello there.", id := 0 }
      { role := "Alice", text := "Hello there.", id := 0 }
      (by decide) (by decide) (by decide) (by decide) (by decide) (by decide) (by decide)⟩

/-- C6 witness: a stop during the auto-read of Bob's line 1 pauses at
index 1 and a resume steps again from index 1. -/
theorem c6_stop_then_resume_witness :
    demoCfg.script.lines.get? 1 = some { role := "Bob", text := "Hi Alice!", id := 1 } ∧
    roleEq ({ role := "Bob", text := "Hi Alice!", id := 1 } : ScriptLine).role
      demoCfg.userRole = false ∧
    (mkState (-1) true false).isPlaying = true ∧
    (readNext demoCfg (PlayEvent.ok true :: []) 1 (mkState (-1) true false) =
      { mkState (-1) true false with
        currentLineIndex := ((1 : Nat) : Int),
        isPlaying := false, readingInProgress := false,
        synthesized := (1, voiceFor demoCfg ({ role := "Bob", text := "Hi Alice!", id := 1 } : ScriptLine).role)
          :: (mkState (-1) true false).synthesized } ∧
     (∀ s2 : OrchState, s2.currentLineIndex = ((1 : Nat) : Int) → s2.readingInProgress = false →
       handleStart demoCfg [] s2 = readNext demoCfg [] 1 { s2 with isPlaying := true })) :=
  ⟨by decide, by decide, by decide,
    c6_stop_then_resume demoCfg (mkState (-1) true false) [] [] 1
      { role := "Bob", text := "Hi Alice!", id := 1 } (by decide) (by decide) (by decide)⟩

/-- C7 witness: paused on Alice's line 0, the final transcript
`Hello there` matches and advances exactly once. -/
theorem c7_advance_exactly_once_witness :
    (mkState 0 false false).currentLineIndex = ((0 : Nat) : Int) ∧
    (mkState 0 false false).isPlaying = false ∧
    demoCfg.script.lines.get? 0 = some { role := "Alice", text := "Hello there.", id := 0 } ∧
    roleEq ({ role := "Alice", text := "Hello there.", id := 0 } : ScriptLine).role
      demoCfg.userRole = true ∧
    isTurnComplete ({ role := "Alice", text := "Hello there.", id := 0 } : ScriptLine).text
      "Hello there" true = true ∧
    (transcriptEvent demoCfg "Hello there" true [] (mkState 0 false false) =
      handleNextTurn demoCfg []
        (if jsToLower (jsTrim "Hello there") ≠ "" then
          { mkState 0 false false with lastTranscript := jsToLower (jsTrim "Hello there") }
         else mkState 0 false false) ∧
     (transcriptEvent demoCfg "Hello there" true [] (mkState 0 false false)).currentLineIndex
       ≠ ((0 : Nat) : Int) ∧
     (∀ (frag2 : String) (f2 : Bool) (ev2 : List PlayEvent) (s2 : OrchState),
       s2.isPlaying = true →
       transcriptEvent demoCfg frag2 f2 ev2 s2 =
         (if jsToLower (jsTrim frag2) ≠ "" then
           { s2 with lastTranscript := jsToLower (jsTrim frag2) } else s2)) ∧
     (∀ s3 : OrchState, s3.currentLineIndex ≠ ((0 : Nat) : Int) →
       manualNextEnabled demoCfg 0 s3 = false)) :=
  ⟨by decide, by decide, by decide, by decide, by decide,
    c7_advance_exactly_once demoCfg (mkState 0 false false) [] 0
      { role := "Alice", text := "Hello there.", id := 0 } "Hello there"
      (by decide) (by decide) (by decide) (by decide) (by decide)⟩

/-- C10 witness: with no voice assignments at all, Bob's line 1 is
synthesized with the fallback voice `Kore`. -/
theorem c10_missing_assignment_fallback_witness :
    demoCfgNoVoice.script.lines.get? 1 = some { role := "Bob", text := "Hi Alice!", id := 1 } ∧
    roleEq ({ role := "Bob", text := "Hi Alice!", id := 1 } : ScriptLine).role
      demoCfgNoVoice.userRole = false ∧
    (mkState (-1) true false).isPlaying = true ∧
    mapGet demoCfgNoVoice.assignments
      ({ role := "Bob", text := "Hi Alice!", id := 1 } : ScriptLine).role = none ∧
    (voiceFor demoCfgNoVoice ({ role := "Bob", text := "Hi Alice!", id := 1 } : ScriptLine).role = "Kore" ∧
     (1, "Kore") ∈ (readNext demoCfgNoVoice [] 1 (mkState (-1) true false)).synthesized) :=
  ⟨by decide, by decide, by decide, by decide,
    c10_missing_assignment_fallback demoCfgNoVoice [] 1 (mkState (-1) true false)
      { role := "Bob", text := "Hi Alice!", id := 1 }
      (by decide) (by decide) (by decide) (by decide)⟩

end DramaBuddy
